import Mathlib

/-!
# Verification of the watsonx-mcp-server embedding index

Shallow embedding of the core logic of the repository:

* `embedding-index.js` (the unnamed source file holding `loadIndex`, `saveIndex`,
  `buildIndex`, `queryIndex`, `ragQuery`, `cosineSimilarity` and the CLI `main`);
* the `CallToolRequestSchema` handler of `index.js`.

JavaScript numbers are idealised as real numbers `ℝ` (for embedding vectors and
similarity scores) and rationals `ℚ` (for the fixed generation parameters);
IEEE-754 rounding, `NaN` and `Infinity` are outside the model.  JavaScript
strings are Lean `String`s, with `s.substring(0, n)` modelled as taking the
first `n` characters.  The file system and the remote watsonx endpoints are
modelled as explicit parameters (a directory listing, a `String → Option String`
reader where `none` is an unreadable file, and embedding/generation oracles).
-/

namespace WatsonxIndex

/-- One entry of the on-disk index, as built by `buildIndex`
(`{ filename, preview, length }`). -/
structure Document where
  filename : String
  preview : String
  length : Nat
  deriving Repr, DecidableEq

/-- The `metadata` object of the index.  `loadIndex`'s fresh empty index sets
`created` and `count`; `buildIndex`'s in-memory index sets only `created`;
`saveIndex` stamps `updated` and `count`.  Fields that a given code path leaves
unset (JS `undefined`) are `none`. -/
structure Metadata where
  created : String
  updated : Option String
  count : Option Nat
  deriving Repr, DecidableEq

/-- The embedding index: `{ documents: [], embeddings: [], metadata: {...} }`.
Embeddings are positionally aligned with documents. -/
structure Index where
  documents : List Document
  embeddings : List (List ℝ)
  metadata : Metadata

/-- The state of the index file on disk.  `absent` — no file (read throws
ENOENT); `malformed` — the file exists but `JSON.parse` throws; `present idx` —
the file holds valid JSON that parses to the record `idx`.  A stored record is
not validated by `loadIndex`, so `present` carries an arbitrary `Index`
(including one with mismatched array lengths). -/
inductive FsState where
  | absent
  | malformed
  | present (idx : Index)

/-- `loadIndex()`: read and `JSON.parse` the index file; on any exception
(missing file, malformed JSON) return a fresh empty index
`{ documents: [], embeddings: [], metadata: { created: now, count: 0 } }`.
`now` is the value of `new Date().toISOString()` at the call. -/
def loadIndex (fs : FsState) (now : String) : Index :=
  match fs with
  | .present idx => idx
  | _ =>
      { documents := []
        embeddings := []
        metadata := { created := now, updated := none, count := some 0 } }

/-- `saveIndex(index)`: stamp `metadata.updated = now` and
`metadata.count = index.documents.length`, then write the whole record to the
index file.  Returns the stamped record together with the resulting disk
state. -/
def saveIndex (index : Index) (now : String) : Index × FsState :=
  let stamped : Index :=
    { index with
        metadata :=
          { index.metadata with
              updated := some now
              count := some index.documents.length } }
  (stamped, .present stamped)

/-- `cosineSimilarity(a, b)`: `dot / (sqrt(normA) * sqrt(normB))` where the
source loop runs `i` from `0` to `a.length - 1`, accumulating
`a[i]*b[i]`, `a[i]*a[i]` and `b[i]*b[i]`.  The truncations (`zip`,
`b.take a.length`) reproduce the loop bound `a.length`; when `b` is shorter
than `a` the source reads `b[i] = undefined` and poisons the sums with `NaN`,
which the real-number model cannot represent — every caller in the repository
compares equal-length vectors. -/
noncomputable def cosineSimilarity (a b : List ℝ) : ℝ :=
  let dot := ((a.zip b).map fun p => p.1 * p.2).sum
  let normA := (a.map fun x => x * x).sum
  let normB := ((b.take a.length).map fun x => x * x).sum
  dot / (Real.sqrt normA * Real.sqrt normB)

/-- Models the JavaScript call `s.substring(0, n)`: the first `n` characters of
`s` (all of `s` when it is shorter). -/
def substringTo (s : String) (n : Nat) : String :=
  String.mk (s.data.take n)

/-- Models `s.replace(/\n/g, " ")`: every newline character becomes a space
(for a single-character pattern, global replace is a character map). -/
def replaceNewlines (s : String) : String :=
  String.mk (s.data.map fun c => if c = '\n' then ' ' else c)

/-- Models `l.slice(0, n)` for a JavaScript array `l` and an integer `n`:
a non-negative `n` takes the first `n` elements; a negative `n` is relative to
the end (`l.length + n`, clamped at `0`, which truncated `Nat` subtraction
gives directly). -/
def jsSlice0 {α : Type} (l : List α) (n : Int) : List α :=
  if 0 ≤ n then l.take n.toNat else l.take (l.length - n.natAbs)

/-- The batching loop `for (let i = 0; i < txtFiles.length; i += batchSize)`
with `batchSize = 10`: splits the file list into consecutive chunks of ten
(`txtFiles.slice(i, i + batchSize)`). -/
def toBatches (l : List String) : List (List String) :=
  match l with
  | [] => []
  | x :: xs => (x :: xs).take 10 :: toBatches (xs.drop 9)
termination_by l.length
decreasing_by simp only [List.length_drop, List.length_cons]; omega

/-- Body of the per-file loop of a `buildIndex` batch: try to read the file;
on success push its 500-character truncation onto `texts` and the document
record onto `docs`; an unreadable file (the `catch`) is skipped. -/
def readBatchStep (readFile : String → Option String)
    (acc : List String × List Document) (file : String) :
    List String × List Document :=
  match readFile file with
  | none => acc
  | some content =>
      let truncated := substringTo content 500
      (acc.1 ++ [truncated],
       acc.2 ++ [{ filename := file
                   preview := replaceNewlines (substringTo truncated 200)
                   length := content.length }])

/-- The per-batch file-reading loop of `buildIndex`, producing the parallel
`texts` and `docs` arrays. -/
def readBatch (readFile : String → Option String) (batch : List String) :
    List String × List Document :=
  batch.foldl (readBatchStep readFile) ([], [])

/-- One iteration of the `buildIndex` batch loop: if the batch produced any
texts, embed them and push `docs[j]` / `embeddings[j]` for each
`j < docs.length` onto the index, and record the submitted batch.
`(embedder texts).getD j []` stands for `embeddings[j]`, where `[]` plays the
role of the JS `undefined` pushed when the service returned fewer vectors than
inputs. -/
def buildStep (readFile : String → Option String)
    (embedder : List String → List (List ℝ))
    (acc : Index × List (List String)) (batch : List String) :
    Index × List (List String) :=
  let texts := (readBatch readFile batch).1
  let docs := (readBatch readFile batch).2
  if texts.length > 0 then
    let embeddings := embedder texts
    ({ acc.1 with
        documents := acc.1.documents ++ docs
        embeddings :=
          acc.1.embeddings ++ (List.range docs.length).map fun j => embeddings.getD j [] },
     acc.2 ++ [texts])
  else acc

/-- The result of `buildIndex`: the value it returns (the index as stamped by
the final `saveIndex`), the resulting on-disk state, and the batches of texts
it submitted to `generateEmbeddings`. -/
structure BuildResult where
  index : Index
  disk : FsState
  submitted : List (List String)

/-- `buildIndex(maxDocs)`: list the source directory, keep the `.txt` files,
`slice(0, maxDocs)`, process them in batches of ten, then `saveIndex` the
result.  `dirListing` models `fs.readdir(DOCUMENTS_PATH)`, `readFile` models
`fs.readFile` (`none` = the read throws), `embedder` models
`generateEmbeddings`, `nowBuild`/`nowSave` the two `new Date().toISOString()`
stamps. -/
def buildIndex (dirListing : List String) (readFile : String → Option String)
    (embedder : List String → List (List ℝ)) (maxDocs : Int)
    (nowBuild nowSave : String) : BuildResult :=
  let txtFiles := jsSlice0 (dirListing.filter fun f => f.endsWith ".txt") maxDocs
  let init : Index :=
    { documents := []
      embeddings := []
      metadata := { created := nowBuild, updated := none, count := none } }
  let built := (toBatches txtFiles).foldl (buildStep readFile embedder) (init, [])
  let saved := saveIndex built.1 nowSave
  { index := saved.1, disk := saved.2, submitted := built.2 }

/-- A search result: the spread of a document record (`...index.documents[i]`)
plus the computed `similarity`. -/
structure SearchResult where
  doc : Document
  similarity : ℝ

/-- Stands for `index.documents[i]` when `i` is out of range (the JS
`undefined` spread); unreachable whenever `documents` and `embeddings` have
equal length. -/
def undefinedDocument : Document :=
  { filename := "", preview := "", length := 0 }

/-- The sort order of `results.sort((a, b) => b.similarity - a.similarity)`:
descending similarity. -/
def simDesc (x y : SearchResult) : Prop :=
  y.similarity ≤ x.similarity

noncomputable instance : DecidableRel simDesc :=
  fun x y => inferInstanceAs (Decidable (y.similarity ≤ x.similarity))

instance : IsTotal SearchResult simDesc :=
  ⟨fun a b => by unfold simDesc; exact le_total _ _⟩

instance : IsTrans SearchResult simDesc :=
  ⟨fun _ _ _ hab hbc => le_trans hbc hab⟩

/-- The scoring map of `queryIndex`:
`index.embeddings.map((emb, i) => ({...index.documents[i], similarity:
cosineSimilarity(queryEmbedding, emb)}))`. -/
noncomputable def scoreResults (index : Index) (queryEmbedding : List ℝ) :
    List SearchResult :=
  index.embeddings.enum.map fun p =>
    { doc := index.documents.getD p.1 undefinedDocument
      similarity := cosineSimilarity queryEmbedding p.2 }

/-- `queryIndex(query, topK)`: load the index; if it has no documents return
`[]` at once (making no remote call); otherwise embed the query
(`generateEmbeddings([query])`, whose first element the source destructures —
`getD 0 []` stands for the `undefined` of an empty response), score every
stored embedding, sort descending by similarity (the comparator
`(a, b) => b.similarity - a.similarity` under the stable Array.prototype.sort,
which stable insertion sort models), and `slice(0, topK)`.  The second
component records the batches submitted to `generateEmbeddings`. -/
noncomputable def queryIndex (fs : FsState)
    (embedder : List String → List (List ℝ))
    (query : String) (topK : Nat) (now : String) :
    List SearchResult × List (List String) :=
  let index := loadIndex fs now
  if index.documents.length = 0 then ([], [])
  else
    let queryEmbedding := (embedder [query]).getD 0 []
    let results := scoreResults index queryEmbedding
    ((List.insertionSort simDesc results).take topK, [[query]])

/-- The request `ragQuery` sends to `client.generateText`. -/
structure GenRequest where
  modelId : String
  input : String
  maxNewTokens : Nat
  temperature : ℚ

/-- One context block assembled by `ragQuery` from a retrieved document. -/
structure RagContext where
  filename : String
  content : String
  similarity : ℝ

/-- What `ragQuery` does after retrieval: either it logs
`"   No documents found. Build index first."` and returns without touching the
generation endpoint (`noDocuments` carries that log line), or it issues exactly
one `generateText` request built from the surviving contexts. -/
inductive RagOutcome where
  | noDocuments (message : String)
  | generated (request : GenRequest) (contexts : List RagContext)

/-- The context-collection loop of `ragQuery`: re-read each retrieved
document's full content, truncate to 1500 characters; a file that no longer
reads (the `catch`) is skipped. -/
def collectContexts (readFile : String → Option String)
    (results : List SearchResult) : List RagContext :=
  results.foldl
    (fun acc r =>
      match readFile r.doc.filename with
      | none => acc
      | some content =>
          acc ++ [{ filename := r.doc.filename
                    content := substringTo content 1500
                    similarity := r.similarity }])
    []

/-- `ragQuery(question, topK = 3)`: retrieve via `queryIndex`; if nothing came
back, log "No documents found" and stop; otherwise assemble the labelled,
delimiter-joined context block and submit one generation request
(`ibm/granite-3-3-8b-instruct`, 400 max new tokens, temperature 0.3). -/
noncomputable def ragQuery (fs : FsState)
    (embedder : List String → List (List ℝ))
    (readFile : String → Option String)
    (question : String) (topK : Nat) (now : String) : RagOutcome :=
  let results := (queryIndex fs embedder question topK now).1
  if results.length = 0 then
    .noDocuments "   No documents found. Build index first."
  else
    let contexts := collectContexts readFile results
    let contextText :=
      String.intercalate "\n\n---\n\n"
        (contexts.map fun c => "[" ++ c.filename ++ "]\n" ++ c.content)
    .generated
      { modelId := "ibm/granite-3-3-8b-instruct"
        input :=
          "You are a helpful assistant. Answer the question based on the provided context documents. If the answer is not in the context, say so.\n\nContext Documents:\n"
            ++ contextText ++ "\n\nQuestion: " ++ question ++ "\n\nAnswer:"
        maxNewTokens := 400
        temperature := 3/10 }
      contexts

/-- Value of a hexadecimal digit character. -/
def hexVal (c : Char) : Nat :=
  if c.isDigit then c.toNat - 48
  else if 'a' ≤ c then c.toNat - 87
  else c.toNat - 55

/-- Whether a character is a hexadecimal digit. -/
def isHexDigit (c : Char) : Bool :=
  c.isDigit || ('a' ≤ c && c ≤ 'f') || ('A' ≤ c && c ≤ 'F')

/-- Models the JavaScript builtin `parseInt(s)` with no radix argument:
skip leading whitespace, read an optional sign, switch to base 16 on a
`0x`/`0X` prefix, then take the longest digit prefix; `none` models the `NaN`
returned when no digit is found. -/
def jsParseInt (s : String) : Option Int :=
  let cs := s.data.dropWhile fun c => c.isWhitespace
  let signAndRest : Int × List Char :=
    match cs with
    | '-' :: rest => (-1, rest)
    | '+' :: rest => (1, rest)
    | _ => (1, cs)
  let baseAndRest : Nat × List Char :=
    match signAndRest.2 with
    | '0' :: 'x' :: rest => (16, rest)
    | '0' :: 'X' :: rest => (16, rest)
    | _ => (10, signAndRest.2)
  let digits := baseAndRest.2.takeWhile fun c =>
    if baseAndRest.1 = 16 then isHexDigit c else c.isDigit
  if digits = [] then none
  else
    some (signAndRest.1 *
      (digits.foldl (fun acc c => acc * baseAndRest.1 + hexVal c) 0 : Nat))

/-- Models `v || d` for a JavaScript number `v` and default `d`: both `NaN`
(`none`) and `0` are falsy and yield the default. -/
def jsOrInt (v : Option Int) (d : Int) : Int :=
  match v with
  | none => d
  | some 0 => d
  | some n => n

/-- The `build` case of the CLI `main`: `const maxDocs = parseInt(arg) || 100`.
`arg` is `process.argv[3]`, which may be absent (`parseInt(undefined)` is
`NaN`, hence the bind). -/
def buildMaxDocs (arg : Option String) : Int :=
  jsOrInt (arg.bind jsParseInt) 100

/-- The `build` subcommand of `main`: parse the count argument and run
`buildIndex` with it. -/
def mainBuild (arg : Option String) (dirListing : List String)
    (readFile : String → Option String)
    (embedder : List String → List (List ℝ))
    (nowBuild nowSave : String) : BuildResult :=
  buildIndex dirListing readFile embedder (buildMaxDocs arg) nowBuild nowSave

/-- The alignment invariant of the data model: the `documents` and
`embeddings` arrays have equal length. -/
def wellFormed (index : Index) : Prop :=
  index.documents.length = index.embeddings.length

/-- A disk state whose stored record, if any, satisfies the alignment
invariant. -/
def diskWellFormed : FsState → Prop
  | .present idx => wellFormed idx
  | _ => True

/-- A syntactically valid on-disk record whose two arrays disagree in length
(one document, no embeddings): nothing in `loadIndex` rules it out. -/
def mismatchedIndex : Index :=
  { documents := [{ filename := "a.txt", preview := "", length := 0 }]
    embeddings := []
    metadata := { created := "2024-01-01T00:00:00.000Z", updated := none, count := some 1 } }

/-- A well-formed one-document index, used as a concrete loaded state. -/
def oneDocIndex : Index :=
  { documents := [{ filename := "a.txt", preview := "p", length := 5 }]
    embeddings := [[1]]
    metadata := { created := "2024-01-01T00:00:00.000Z", updated := none, count := some 1 } }

/-- A query string of 501 characters — one more than the embedding budget. -/
def longQuery : String :=
  String.mk (List.replicate 501 'a')

/-- A concrete embedding oracle answering every request with one unit
vector. -/
def constEmbedder : List String → List (List ℝ) :=
  fun _ => [[1]]

end WatsonxIndex

namespace McpServer

/-- One element of the `content` array of a tool response. -/
structure ToolContent where
  type : String
  text : String
  deriving Repr, DecidableEq

/-- The value returned by the `CallToolRequestSchema` handler of `index.js`. -/
structure ToolResponse where
  content : List ToolContent
  deriving Repr, DecidableEq

/-- One element of `args.messages` for the `watsonx_chat` tool. -/
structure ChatMessage where
  role : String
  content : String

/-- The `arguments` object of a tool call.  Absent properties (the JS
`undefined`) are `none`. -/
structure ToolArgs where
  prompt : Option String
  model_id : Option String
  max_new_tokens : Option Nat
  temperature : Option ℚ
  top_p : Option ℚ
  top_k : Option Nat
  texts : Option (List String)
  messages : Option (List ChatMessage)

/-- The params object the handler passes to `client.generateText` (used by
both `watsonx_generate` and `watsonx_chat`; fields a given call site does not
set are `none`). -/
structure GenParams where
  input : Option String
  modelId : String
  maxNewTokens : Nat
  temperature : ℚ
  topP : Option ℚ
  topK : Option Nat
  stopSequences : Option (List String)
  spaceId : Option String
  projectId : Option String

/-- The params object the handler passes to `client.embedText`. -/
structure EmbedParams where
  inputs : Option (List String)
  modelId : String
  spaceId : Option String
  projectId : Option String

/-- What the handler reads off a `generateText` response:
`response.result.results?.[0]?.generated_text` (`none` when the optional
chain hits `undefined`). -/
structure GenResponseModel where
  firstGeneratedText : Option String

/-- One entry of `response.result.resources` from
`listFoundationModelSpecs`. -/
structure ModelSpec where
  model_id : String
  label : String
  provider : String
  tasks : List String

/-- The remote watsonx.ai client, as an oracle: each call either returns a
response or throws (`Except.error` carries `error.message`).
`stringifyEmbedResult` and `stringifyModels` stand for the two
`JSON.stringify(_, null, 2)` renderings, which the handler never inspects. -/
structure Remote where
  generateText : GenParams → Except String GenResponseModel
  listFoundationModelSpecs : Nat → Except String (Option (List ModelSpec))
  embedText : EmbedParams → Except String String
  stringifyModels : List (String × String × String × List String) → String

/-- The relevant process environment of `index.js`: whether
`getWatsonxClient()` yields a client (the API key is set), and the
`WATSONX_SPACE_ID` / `WATSONX_PROJECT_ID` variables. -/
structure HandlerEnv where
  hasClient : Bool
  spaceId : Option String
  projectId : Option String
  remote : Remote

/-- The repeated `spaceId (preferred) or projectId` block:
`if (WATSONX_SPACE_ID) params.spaceId = ... else if (WATSONX_PROJECT_ID)
params.projectId = ...`. -/
def spaceFields (env : HandlerEnv) : Option String × Option String :=
  match env.spaceId with
  | some s => (some s, none)
  | none => (none, env.projectId)

/-- Models `v || d` for a JavaScript string: `undefined` and `""` are falsy. -/
def jsOrString (v : Option String) (d : String) : String :=
  match v with
  | none => d
  | some s => if s = "" then d else s

/-- Models `v || d` for a JavaScript number: `undefined`, `NaN` and `0` are
falsy (here the value, when present, is an actual number). -/
def jsOrNat (v : Option Nat) (d : Nat) : Nat :=
  match v with
  | none => d
  | some 0 => d
  | some n => n

/-- Models `v || d` for a JavaScript (rational-valued) number. -/
def jsOrRat (v : Option ℚ) (d : ℚ) : ℚ :=
  match v with
  | none => d
  | some q => if q = 0 then d else q

/-- The message formatting of `watsonx_chat`:
`args.messages.map(role switch).join("\n\n")`. -/
def formatMessages (ms : List ChatMessage) : String :=
  String.intercalate "\n\n"
    (ms.map fun m =>
      if m.role = "system" then "System: " ++ m.content
      else if m.role = "user" then "User: " ++ m.content
      else if m.role = "assistant" then "Assistant: " ++ m.content
      else m.content)

/-- The `try`-block of the tool-call handler: the `switch` over the tool name.
A thrown JS exception anywhere inside is an `Except.error` (in particular,
`watsonx_chat` with absent `messages` throws a `TypeError` from
`undefined.map`). -/
def handleToolCallBody (env : HandlerEnv) (name : String) (args : ToolArgs) :
    Except String ToolResponse :=
  if name = "watsonx_generate" then
    match env.remote.generateText
        { input := args.prompt
          modelId := jsOrString args.model_id "ibm/granite-13b-chat-v2"
          maxNewTokens := jsOrNat args.max_new_tokens 500
          temperature := jsOrRat args.temperature (7/10)
          topP := some (jsOrRat args.top_p 1)
          topK := some (jsOrNat args.top_k 50)
          stopSequences := none
          spaceId := (spaceFields env).1
          projectId := (spaceFields env).2 } with
    | .error e => .error e
    | .ok resp =>
        .ok { content := [{ type := "text", text := resp.firstGeneratedText.getD "" }] }
  else if name = "watsonx_list_models" then
    match env.remote.listFoundationModelSpecs 100 with
    | .error e => .error e
    | .ok resources =>
        let models :=
          (resources.map (List.map fun m => (m.model_id, m.label, m.provider, m.tasks))).getD []
        .ok { content := [{ type := "text", text := env.remote.stringifyModels models }] }
  else if name = "watsonx_embeddings" then
    match env.remote.embedText
        { inputs := args.texts
          modelId := jsOrString args.model_id "ibm/slate-125m-english-rtrvr"
          spaceId := (spaceFields env).1
          projectId := (spaceFields env).2 } with
    | .error e => .error e
    | .ok rendered =>
        .ok { content := [{ type := "text", text := rendered }] }
  else if name = "watsonx_chat" then
    match args.messages with
    | none => .error "Cannot read properties of undefined (reading 'map')"
    | some ms =>
        match env.remote.generateText
            { input := formatMessages ms ++ "\n\nAssistant:"
              modelId := jsOrString args.model_id "ibm/granite-13b-chat-v2"
              maxNewTokens := jsOrNat args.max_new_tokens 500
              temperature := jsOrRat args.temperature (7/10)
              topP := none
              topK := none
              stopSequences := some ["User:", "System:"]
              spaceId := (spaceFields env).1
              projectId := (spaceFields env).2 } with
        | .error e => .error e
        | .ok resp =>
            .ok { content :=
                    [{ type := "text"
                       text := (resp.firstGeneratedText.getD "").trim }] }
  else
    .ok { content := [{ type := "text", text := "Unknown tool: " ++ name }] }

/-- The full `CallToolRequestSchema` handler: the unconfigured-client early
return, then the `try`/`catch` around the tool `switch`; the `catch` turns any
thrown error into an error-text result. -/
def handleToolCall (env : HandlerEnv) (name : String) (args : ToolArgs) :
    ToolResponse :=
  if env.hasClient = false then
    { content :=
        [{ type := "text"
           text := "Error: watsonx.ai not configured. Set WATSONX_API_KEY environment variable." }] }
  else
    match handleToolCallBody env name args with
    | .ok r => r
    | .error e =>
        { content := [{ type := "text", text := "Error calling watsonx.ai: " ++ e }] }

end McpServer

namespace WatsonxIndex

/-- C3: for every on-disk state in which the index file is absent or its
contents are malformed JSON, `loadIndex` raises nothing and returns an empty
index — empty `documents` and `embeddings`, `count` zero, and a freshly
stamped `created` time. -/
theorem loadIndex_missing_or_malformed (fs : FsState) (now : String)
    (h : fs = .absent ∨ fs = .malformed) :
    loadIndex fs now =
      { documents := []
        embeddings := []
        metadata := { created := now, updated := none, count := some 0 } } := by
  rcases h with h | h <;> subst h <;> rfl

theorem loadIndex_missing_or_malformed_witness :
    loadIndex .absent "2024-01-01T00:00:00.000Z" =
      { documents := []
        embeddings := []
        metadata :=
          { created := "2024-01-01T00:00:00.000Z", updated := none, count := some 0 } } :=
  loadIndex_missing_or_malformed _ _ (Or.inl rfl)

/-- C4: saving any index with `saveIndex` and reloading it with `loadIndex`
yields an index whose `documents` and `embeddings` arrays equal the originals,
order and values preserved. -/
theorem saveIndex_loadIndex_roundtrip (index : Index) (nowSave nowLoad : String) :
    (loadIndex (saveIndex index nowSave).2 nowLoad).documents = index.documents ∧
    (loadIndex (saveIndex index nowSave).2 nowLoad).embeddings = index.embeddings :=
  ⟨rfl, rfl⟩

/-- C8: cosine similarity is symmetric on equal-length vectors. -/
theorem cosineSimilarity_symm (a b : List ℝ) (h : a.length = b.length) :
    cosineSimilarity a b = cosineSimilarity b a := by
  have hzip : ∀ u v : List ℝ,
      ((u.zip v).map fun p => p.1 * p.2).sum =
        ((v.zip u).map fun p => p.1 * p.2).sum := by
    intro u
    induction u with
    | nil => intro v; cases v <;> simp
    | cons x xs ih =>
      intro v
      cases v with
      | nil => simp
      | cons y ys => simp [ih, mul_comm]
  simp only [cosineSimilarity]
  rw [hzip, List.take_of_length_le h.le, List.take_of_length_le h.ge,
    mul_comm (Real.sqrt _)]

theorem cosineSimilarity_symm_witness :
    cosineSimilarity [1, 2] [3, 4] = cosineSimilarity [3, 4] [1, 2] :=
  cosineSimilarity_symm [1, 2] [3, 4] rfl

end WatsonxIndex

namespace McpServer

/-- Every successful branch of the `switch` yields exactly one text-typed
content item. -/
theorem handleToolCallBody_text_shape (env : HandlerEnv) (name : String)
    (args : ToolArgs) (r : ToolResponse)
    (h : handleToolCallBody env name args = .ok r) :
    r.content.length = 1 ∧ ∀ c ∈ r.content, c.type = "text" := by
  unfold handleToolCallBody at h
  repeat' split at h
  all_goals first
    | (injection h with h; subst h; simp)
    | exact Except.noConfusion h

/-- C9: for every tool invocation — any tool name, any argument object, and
any remote outcome — the handler returns a response consisting of exactly one
text-typed content item (a result or an error text); every thrown error is
absorbed by the `catch`, so nothing escapes the handler boundary. -/
theorem handleToolCall_total_text (env : HandlerEnv) (name : String)
    (args : ToolArgs) :
    (handleToolCall env name args).content.length = 1 ∧
    ∀ c ∈ (handleToolCall env name args).content, c.type = "text" := by
  unfold handleToolCall
  split
  · simp
  · rcases hbody : handleToolCallBody env name args with e | r
    · simp [hbody]
    · simp only [hbody]
      exact handleToolCallBody_text_shape env name args r hbody

theorem handleToolCall_total_text_witness :
    (handleToolCall
        { hasClient := true
          spaceId := none
          projectId := none
          remote :=
            { generateText := fun _ => .error "boom"
              listFoundationModelSpecs := fun _ => .ok none
              embedText := fun _ => .ok "{}"
              stringifyModels := fun _ => "[]" } }
        "watsonx_generate"
        { prompt := none, model_id := none, max_new_tokens := none
          temperature := none, top_p := none, top_k := none
          texts := none, messages := none }).content.length = 1 :=
  (handleToolCall_total_text _ _ _).1

end McpServer

namespace WatsonxIndex

/-- C2 counterexample: `loadIndex` hands back whatever record the file
parses to, so a stored record with one document and no embeddings is returned
as is, violating the alignment invariant. -/
theorem index_invariant_counterexample :
    ¬ wellFormed (loadIndex (.present mismatchedIndex) "2024-01-02T00:00:00.000Z") := by
  simp [wellFormed, loadIndex, mismatchedIndex]

/-- `buildStep` appends one embedding entry per appended document. -/
theorem buildStep_wellFormed (rf : String → Option String)
    (emb : List String → List (List ℝ)) (acc : Index × List (List String))
    (batch : List String) (h : wellFormed acc.1) :
    wellFormed (buildStep rf emb acc batch).1 := by
  simp only [buildStep]
  split
  · simp only [wellFormed, List.length_append, List.length_map, List.length_range] at h ⊢
    omega
  · exact h

/-- The batch loop of `buildIndex` preserves the alignment invariant. -/
theorem buildFold_wellFormed (rf : String → Option String)
    (emb : List String → List (List ℝ)) :
    ∀ (batches : List (List String)) (acc : Index × List (List String)),
      wellFormed acc.1 →
      wellFormed ((batches.foldl (buildStep rf emb) acc).1) := by
  intro batches
  induction batches with
  | nil => intro acc h; exact h
  | cons b bs ih => intro acc h; exact ih _ (buildStep_wellFormed rf emb acc b h)

/-- `saveIndex` touches only metadata, so it preserves the invariant. -/
theorem saveIndex_wellFormed (idx : Index) (now : String)
    (h : wellFormed idx) : wellFormed (saveIndex idx now).1 := h

/-- Every index `buildIndex` returns satisfies the invariant. -/
theorem buildIndex_wellFormed (dir : List String) (rf : String → Option String)
    (emb : List String → List (List ℝ)) (maxDocs : Int) (n1 n2 : String) :
    wellFormed (buildIndex dir rf emb maxDocs n1 n2).index :=
  saveIndex_wellFormed _ _ (buildFold_wellFormed rf emb _ _ rfl)

/-- `loadIndex` yields a well-formed index whenever the disk is absent,
malformed, or stores a well-formed record. -/
theorem loadIndex_wellFormed (fs : FsState) (now : String)
    (h : diskWellFormed fs) : wellFormed (loadIndex fs now) := by
  cases fs with
  | present idx => exact h
  | absent => rfl
  | malformed => rfl

/-- C2 amended: `buildIndex` always yields (and persists) an index with
`len(documents) == len(embeddings)`; `saveIndex` preserves the invariant; and
`loadIndex` yields a well-formed index for every absent or malformed file and
for every stored record that itself satisfies the invariant — but a stored
record violating it is returned unchanged, so the unqualified claim fails for
`loadIndex`. -/
theorem index_invariant_amended (dir : List String) (rf : String → Option String)
    (emb : List String → List (List ℝ)) (maxDocs : Int) (n1 n2 : String)
    (idx : Index) (hidx : wellFormed idx) (n3 : String)
    (fs : FsState) (hfs : diskWellFormed fs) (n4 : String) :
    wellFormed (buildIndex dir rf emb maxDocs n1 n2).index ∧
    wellFormed (saveIndex idx n3).1 ∧
    wellFormed (loadIndex fs n4) :=
  ⟨buildIndex_wellFormed dir rf emb maxDocs n1 n2,
   saveIndex_wellFormed idx n3 hidx,
   loadIndex_wellFormed fs n4 hfs⟩

theorem index_invariant_amended_witness :
    wellFormed (buildIndex [] (fun _ => none) (fun _ => []) 0 "t1" "t2").index ∧
    wellFormed (saveIndex oneDocIndex "t3").1 ∧
    wellFormed (loadIndex .absent "t4") :=
  index_invariant_amended [] (fun _ => none) (fun _ => []) 0 "t1" "t2"
    oneDocIndex rfl "t3" .absent trivial "t4"

/-- C6: on an index with zero documents, `ragQuery` stops at the
"No documents found" report; no generation request is produced (the outcome is
not `generated`). -/
theorem ragQuery_empty_index (fs : FsState) (emb : List String → List (List ℝ))
    (rf : String → Option String) (question : String) (topK : Nat) (now : String)
    (h : (loadIndex fs now).documents.length = 0) :
    ragQuery fs emb rf question topK now =
      .noDocuments "   No documents found. Build index first." := by
  simp [ragQuery, queryIndex, h]

theorem ragQuery_empty_index_witness :
    ragQuery .absent (fun _ => [[1]]) (fun _ => none) "q" 3 "t" =
      .noDocuments "   No documents found. Build index first." :=
  ragQuery_empty_index .absent (fun _ => [[1]]) (fun _ => none) "q" 3 "t" rfl

/-- C10: the CLI `build` case computes `parseInt(arg) || 100`, so both the
argument `"0"` (whose parse, `0`, is falsy) and every non-numeric argument
(whose parse is `NaN`) fall back to the default of 100, and `build 0` runs
`buildIndex` with 100, not 0. -/
theorem cli_build_zero_maps_to_default (s : String) (h : jsParseInt s = none)
    (dir : List String) (rf : String → Option String)
    (emb : List String → List (List ℝ)) (n1 n2 : String) :
    buildMaxDocs (some "0") = 100 ∧
    buildMaxDocs (some s) = 100 ∧
    mainBuild (some "0") dir rf emb n1 n2 = buildIndex dir rf emb 100 n1 n2 := by
  have h0 : buildMaxDocs (some "0") = 100 := by decide
  refine ⟨h0, ?_, ?_⟩
  · simp [buildMaxDocs, h, jsOrInt]
  · unfold mainBuild
    rw [h0]

theorem cli_build_zero_maps_to_default_witness :
    buildMaxDocs (some "0") = 100 ∧
    buildMaxDocs (some "abc") = 100 ∧
    mainBuild (some "0") ["a.txt"] (fun _ => some "hello")
        (fun ts => ts.map fun _ => [1]) "t1" "t2" =
      buildIndex ["a.txt"] (fun _ => some "hello")
        (fun ts => ts.map fun _ => [1]) 100 "t1" "t2" :=
  cli_build_zero_maps_to_default "abc" (by decide) _ _ _ _ _

end WatsonxIndex

namespace WatsonxIndex

/-- A batch of unreadable files contributes nothing: the per-file loop skips
every file. -/
theorem readBatch_foldl_unreadable (rf : String → Option String) :
    ∀ (batch : List String) (acc : List String × List Document),
      (∀ f ∈ batch, rf f = none) →
      batch.foldl (readBatchStep rf) acc = acc := by
  intro batch
  induction batch with
  | nil => intro acc _; rfl
  | cons f fs ih =>
    intro acc h
    have hf : rf f = none := h f (List.mem_cons_self _ _)
    simp only [List.foldl_cons]
    rw [show readBatchStep rf acc f = acc by simp [readBatchStep, hf]]
    exact ih acc fun g hg => h g (List.mem_cons_of_mem _ hg)

/-- When every file of every batch is unreadable, the batch loop leaves the
accumulator untouched (in particular, no embedding request is made). -/
theorem buildFold_unreadable (rf : String → Option String)
    (emb : List String → List (List ℝ)) :
    ∀ (batches : List (List String)) (acc : Index × List (List String)),
      (∀ b ∈ batches, ∀ f ∈ b, rf f = none) →
      batches.foldl (buildStep rf emb) acc = acc := by
  intro batches
  induction batches with
  | nil => intro acc _; rfl
  | cons b bs ih =>
    intro acc h
    have hb : readBatch rf b = ([], []) :=
      readBatch_foldl_unreadable rf b ([], []) (h b (List.mem_cons_self _ _))
    simp only [List.foldl_cons]
    rw [show buildStep rf emb acc b = acc by simp [buildStep, hb]]
    exact ih acc fun c hc f hf => h c (List.mem_cons_of_mem _ hc) f hf

/-- Every file of every chunk produced by the batching loop comes from the
original list. -/
theorem toBatches_sublists (l : List String) :
    ∀ b ∈ toBatches l, ∀ f ∈ b, f ∈ l := by
  induction l using toBatches.induct with
  | case1 => intro b hb; simp [toBatches] at hb
  | case2 x xs ih =>
    intro b hb f hf
    rw [toBatches] at hb
    rcases List.mem_cons.mp hb with hb | hb
    · exact List.take_subset _ _ (hb ▸ hf)
    · exact List.mem_cons_of_mem _ (List.drop_subset _ _ (ih b hb f hf))

/-- C7: building with `maxDocuments = 0`, or over a directory none of whose
matching files is readable, produces and persists an index with empty
`documents` and `embeddings` and `count == 0`. -/
theorem buildIndex_zero_or_unreadable_empty (dir : List String)
    (rf : String → Option String) (emb : List String → List (List ℝ))
    (maxDocs : Int) (n1 n2 : String)
    (h : maxDocs = 0 ∨
      ∀ f ∈ jsSlice0 (dir.filter fun f => f.endsWith ".txt") maxDocs, rf f = none) :
    (buildIndex dir rf emb maxDocs n1 n2).index.documents = [] ∧
    (buildIndex dir rf emb maxDocs n1 n2).index.embeddings = [] ∧
    (buildIndex dir rf emb maxDocs n1 n2).index.metadata.count = some 0 ∧
    (buildIndex dir rf emb maxDocs n1 n2).disk =
      .present (buildIndex dir rf emb maxDocs n1 n2).index := by
  have hall : ∀ f ∈ jsSlice0 (dir.filter fun f => f.endsWith ".txt") maxDocs,
      rf f = none := by
    rcases h with h | h
    · subst h; intro f hf; simp [jsSlice0] at hf
    · exact h
  have hfold := buildFold_unreadable rf emb
    (toBatches (jsSlice0 (dir.filter fun f => f.endsWith ".txt") maxDocs))
    ({ documents := []
       embeddings := []
       metadata := { created := n1, updated := none, count := none } }, [])
    (fun b hb f hf => hall f (toBatches_sublists _ b hb f hf))
  simp only [buildIndex, hfold, saveIndex]
  exact ⟨trivial, trivial, rfl, trivial⟩

theorem buildIndex_zero_or_unreadable_empty_witness :
    (buildIndex ["a.txt"] (fun _ => some "hello") (fun ts => ts.map fun _ => [1])
        0 "t1" "t2").index.documents = [] ∧
    (buildIndex ["a.txt"] (fun _ => some "hello") (fun ts => ts.map fun _ => [1])
        0 "t1" "t2").index.embeddings = [] ∧
    (buildIndex ["a.txt"] (fun _ => some "hello") (fun ts => ts.map fun _ => [1])
        0 "t1" "t2").index.metadata.count = some 0 ∧
    (buildIndex ["a.txt"] (fun _ => some "hello") (fun ts => ts.map fun _ => [1])
        0 "t1" "t2").disk =
      .present (buildIndex ["a.txt"] (fun _ => some "hello")
        (fun ts => ts.map fun _ => [1]) 0 "t1" "t2").index :=
  buildIndex_zero_or_unreadable_empty _ _ _ _ _ _ (Or.inl rfl)

end WatsonxIndex

namespace WatsonxIndex

/-- C5 counterexample: a 501-character query is handed to the embedding call of
`queryIndex` unmodified — the submitted batch is exactly `[query]`, with no
truncation to 500 characters. -/
theorem query_truncation_counterexample :
    (queryIndex (.present oneDocIndex) (fun _ => [[1]]) longQuery 5 "t").2 =
      [[longQuery]] ∧
    500 < longQuery.length := by
  constructor
  · simp [queryIndex, loadIndex, oneDocIndex]
  · have h501 : longQuery.length = 501 := by
      unfold longQuery
      show (List.replicate 501 'a').length = 501
      rw [List.length_replicate]
    omega

/-- The per-file loop only ever pushes 500-character truncations onto
`texts`. -/
theorem readBatch_texts_bounded (rf : String → Option String) :
    ∀ (batch : List String) (acc : List String × List Document),
      (∀ t ∈ acc.1, t.length ≤ 500) →
      ∀ t ∈ (batch.foldl (readBatchStep rf) acc).1, t.length ≤ 500 := by
  intro batch
  induction batch with
  | nil => intro acc h; exact h
  | cons f fs ih =>
    intro acc h
    refine ih (readBatchStep rf acc f) ?_
    unfold readBatchStep
    split
    · exact h
    · intro t ht
      rcases List.mem_append.mp ht with ht | ht
      · exact h t ht
      · rcases List.mem_singleton.mp ht with rfl
        exact List.length_take_le _ _

/-- Whatever the batch loop records as submitted consists of bounded texts. -/
theorem buildFold_submitted_bounded (rf : String → Option String)
    (emb : List String → List (List ℝ)) :
    ∀ (batches : List (List String)) (acc : Index × List (List String)),
      (∀ b ∈ acc.2, ∀ t ∈ b, t.length ≤ 500) →
      ∀ b ∈ (batches.foldl (buildStep rf emb) acc).2, ∀ t ∈ b, t.length ≤ 500 := by
  intro batches
  induction batches with
  | nil => intro acc h; exact h
  | cons batch bs ih =>
    intro acc h
    refine ih (buildStep rf emb acc batch) ?_
    simp only [buildStep]
    split
    · intro b hb
      rcases List.mem_append.mp hb with hb | hb
      · exact h b hb
      · rcases List.mem_singleton.mp hb with rfl
        exact readBatch_texts_bounded rf batch ([], []) (by simp)
    · exact h

/-- Every text `buildIndex` submits to the embedding endpoint is at most 500
characters long. -/
theorem buildIndex_submitted_bounded (dir : List String)
    (rf : String → Option String) (emb : List String → List (List ℝ))
    (maxDocs : Int) (n1 n2 : String) :
    ∀ b ∈ (buildIndex dir rf emb maxDocs n1 n2).submitted, ∀ t ∈ b,
      t.length ≤ 500 := by
  simp only [buildIndex]
  exact buildFold_submitted_bounded rf emb _ _ (by simp)

/-- C5 amended: the texts embedded during an index build are truncated to at
most 500 characters before submission, but the search query embedded during
`queryIndex` is submitted unmodified (as the single-element batch `[query]`),
with no truncation. -/
theorem embedding_truncation_amended (dir : List String)
    (rf : String → Option String) (emb : List String → List (List ℝ))
    (maxDocs : Int) (n1 n2 : String)
    (fs : FsState) (qemb : List String → List (List ℝ)) (query : String)
    (topK : Nat) (now : String)
    (hne : (loadIndex fs now).documents.length ≠ 0) :
    (∀ b ∈ (buildIndex dir rf emb maxDocs n1 n2).submitted, ∀ t ∈ b,
      t.length ≤ 500) ∧
    (queryIndex fs qemb query topK now).2 = [[query]] := by
  refine ⟨buildIndex_submitted_bounded dir rf emb maxDocs n1 n2, ?_⟩
  simp [queryIndex, hne]

theorem embedding_truncation_amended_witness :
    (∀ b ∈ (buildIndex ["a.txt"] (fun _ => some "hello")
        (fun ts => ts.map fun _ => [1]) 100 "t1" "t2").submitted, ∀ t ∈ b,
      t.length ≤ 500) ∧
    (queryIndex (.present oneDocIndex) (fun _ => [[1]]) longQuery 5 "t").2 =
      [[longQuery]] :=
  embedding_truncation_amended ["a.txt"] (fun _ => some "hello")
    (fun ts => ts.map fun _ => [1]) 100 "t1" "t2"
    (.present oneDocIndex) (fun _ => [[1]]) longQuery 5 "t" (by decide)

end WatsonxIndex

namespace WatsonxIndex

/-- The scored-results array has one entry per stored embedding. -/
theorem scoreResults_length (index : Index) (qe : List ℝ) :
    (scoreResults index qe).length = index.embeddings.length := by
  simp [scoreResults]

/-- C1: on a loaded index whose arrays are aligned, `queryIndex` returns
exactly `min(topK, N)` results, sorted by similarity descending; together with
some rest they are a permutation of the full scored-document array (so each
returned document is covered exactly once), and every returned similarity is
at least every non-returned similarity. -/
theorem queryIndex_topK (index : Index) (emb : List String → List (List ℝ))
    (query : String) (topK : Nat) (now : String)
    (hlen : index.documents.length = index.embeddings.length) :
    (queryIndex (.present index) emb query topK now).1.length =
      min topK index.documents.length ∧
    List.Sorted simDesc (queryIndex (.present index) emb query topK now).1 ∧
    ∃ rest,
      ((queryIndex (.present index) emb query topK now).1 ++ rest).Perm
        (scoreResults index ((emb [query]).getD 0 [])) ∧
      ∀ x ∈ (queryIndex (.present index) emb query topK now).1, ∀ y ∈ rest,
        y.similarity ≤ x.similarity := by
  by_cases h0 : index.documents.length = 0
  · have hq : (queryIndex (.present index) emb query topK now).1 = [] := by
      simp [queryIndex, loadIndex, h0]
    have hs : scoreResults index ((emb [query]).getD 0 []) = [] := by
      have hl := scoreResults_length index ((emb [query]).getD 0 [])
      rw [← hlen, h0] at hl
      exact List.length_eq_zero.mp hl
    exact ⟨by simp [hq, h0], by simp [hq], [], by rw [hq, hs]; simp, by simp [hq]⟩
  · have hq : (queryIndex (.present index) emb query topK now).1 =
        (List.insertionSort simDesc
          (scoreResults index ((emb [query]).getD 0 []))).take topK := by
      simp [queryIndex, loadIndex, h0]
    set all := scoreResults index ((emb [query]).getD 0 []) with hall
    set sorted := List.insertionSort simDesc all with hsorted
    have hperm : sorted.Perm all := List.perm_insertionSort simDesc all
    have hsort : List.Sorted simDesc sorted := List.sorted_insertionSort simDesc all
    have hslen : sorted.length = index.documents.length := by
      rw [hperm.length_eq, hall, scoreResults_length, ← hlen]
    refine ⟨?_, ?_, sorted.drop topK, ?_, ?_⟩
    · rw [hq, List.length_take, hslen]
    · rw [hq]
      exact List.Pairwise.sublist (List.take_sublist _ _) hsort
    · rw [hq, List.take_append_drop]
      exact hperm
    · intro x hx y hy
      have hpw : List.Pairwise simDesc (sorted.take topK ++ sorted.drop topK) := by
        rw [List.take_append_drop]; exact hsort
      exact (List.pairwise_append.mp hpw).2.2 x (hq ▸ hx) y hy

theorem queryIndex_topK_witness :
    (queryIndex (.present oneDocIndex) constEmbedder "q" 2 "t").1.length =
      min 2 oneDocIndex.documents.length ∧
    List.Sorted simDesc (queryIndex (.present oneDocIndex) constEmbedder "q" 2 "t").1 ∧
    ∃ rest,
      ((queryIndex (.present oneDocIndex) constEmbedder "q" 2 "t").1 ++ rest).Perm
        (scoreResults oneDocIndex ((constEmbedder ["q"]).getD 0 [])) ∧
      ∀ x ∈ (queryIndex (.present oneDocIndex) constEmbedder "q" 2 "t").1, ∀ y ∈ rest,
        y.similarity ≤ x.similarity :=
  queryIndex_topK oneDocIndex constEmbedder "q" 2 "t" rfl

end WatsonxIndex
